import Mathlib

/-
Verification of the audio transcription/summarization pipeline
(src/audio_summary.py) against its specification.

Python strings are modelled as lists of characters (List Char); Python
str.lower is modelled by mapping Char.toLower over the list (the program
only ever compares ASCII extension characters, where the two agree).
The filesystem, the speech model and the remote chat-completion API are
modelled explicitly: the filesystem as a record of directories, files and
a set of paths at which a write raises; the two external services as
functions returning an Except value (error = the raised exception's
message).  Fallible Python code becomes Except-returning Lean code.
-/

namespace AudioSummary

/-- Python str.lower over the characters of the path (ASCII case map). -/
def lowerStr (p : List Char) : List Char := p.map Char.toLower

/-- The tuple of supported extensions from is_supported_format
(src/audio_summary.py line 97). -/
def supported_formats : List (List Char) :=
  [(".mp3").toList, (".mp4").toList, (".mpeg").toList, (".mpga").toList,
   (".m4a").toList, (".wav").toList, (".webm").toList]

/-- is_supported_format (src/audio_summary.py lines 95-98):
file_path.lower().endswith(supported_formats).  Python str.endswith with a
tuple argument is true when the string ends with any element. -/
def is_supported_format (file_path : List Char) : Bool :=
  supported_formats.any (fun f => f.isSuffixOf (lowerStr file_path))

/-- os.path.basename: the part of the path after the last slash. -/
def basename (p : List Char) : List Char :=
  (p.reverse.takeWhile (fun c => c != '/')).reverse

/-- Split a character list at its last dot: returns the part before the
last dot and the part after it (the dot itself dropped from both), or
none when the list has no dot.  Helper for the os.path.splitext model. -/
def splitLastDot : List Char → Option (List Char × List Char)
  | [] => none
  | c :: rest =>
    match splitLastDot rest with
    | some (s, a) => some (c :: s, a)
    | none => if c = '.' then some ([], rest) else none

/-- The extension of a path in the sense of os.path.splitext: the part of
the basename from its last dot on, except that a basename consisting of
leading dots only (such as a bare ".mp3") has no extension. -/
def pyExt (p : List Char) : List Char :=
  match splitLastDot (basename p) with
  | none => []
  | some (s, a) => if s.any (fun c => c != '.') then '.' :: a else []

/-- os.path.splitext(os.path.basename(p))[0], the base_name computed by
main (src/audio_summary.py line 126). -/
def pyStem (p : List Char) : List Char :=
  match splitLastDot (basename p) with
  | none => basename p
  | some (s, _) => if s.any (fun c => c != '.') then s else basename p

example : is_supported_format (("Speech.MP3").toList) = true := by decide
example : is_supported_format ((".mp3").toList) = true := by decide
example : is_supported_format (("notes.pdf").toList) = false := by decide
example : is_supported_format (("mp3").toList) = false := by decide
example : pyExt (("a/b/c.Mp3").toList) = (".Mp3").toList := by decide
example : pyExt ((".mp3").toList) = [] := by decide
example : pyExt (("a/..mp3").toList) = [] := by decide
example : pyExt (("a..mp3").toList) = (".mp3").toList := by decide
example : pyStem (("dir/speech.mp3").toList) = ("speech").toList := by decide
example : pyStem ((".mp3").toList) = (".mp3").toList := by decide

/-- A wall-clock instant at the second granularity used by
datetime.now().strftime("%Y%m%d_%H%M%S"). -/
structure DateTime where
  year : Nat
  month : Nat
  day : Nat
  hour : Nat
  minute : Nat
  second : Nat
deriving DecidableEq, Repr

/-- The field ranges Python's datetime guarantees (datetime caps years at
9999; below year 1000 the platform %Y directive may drop the zero
padding, so the model is stated for four-digit years, which covers every
wall-clock value the program can observe). -/
def ValidDT (t : DateTime) : Prop :=
  1000 ≤ t.year ∧ t.year ≤ 9999 ∧ 1 ≤ t.month ∧ t.month ≤ 12 ∧
  1 ≤ t.day ∧ t.day ≤ 31 ∧ t.hour ≤ 23 ∧ t.minute ≤ 59 ∧ t.second ≤ 59

instance (t : DateTime) : Decidable (ValidDT t) := by
  unfold ValidDT; infer_instance

/-- The decimal digit character for d (used with d below 10). -/
def digitChar (d : Nat) : Char := Char.ofNat (48 + d)

/-- Two-digit zero-padded decimal rendering (strftime %m %d %H %M %S). -/
def pad2 (n : Nat) : List Char := [digitChar (n / 10 % 10), digitChar (n % 10)]

/-- Four-digit zero-padded decimal rendering (strftime %Y for datetime
years, which are at most 9999). -/
def pad4 (n : Nat) : List Char := pad2 (n / 100) ++ pad2 (n % 100)

/-- The YYYYMMDD date half of the timestamp. -/
def datePart (t : DateTime) : List Char :=
  pad4 t.year ++ pad2 t.month ++ pad2 t.day

/-- The HHMMSS time half of the timestamp. -/
def timePart (t : DateTime) : List Char :=
  pad2 t.hour ++ pad2 t.minute ++ pad2 t.second

/-- datetime.now().strftime("%Y%m%d_%H%M%S") as a function of the
wall-clock instant (src/audio_summary.py line 91). -/
def strftimeTimestamp (t : DateTime) : List Char :=
  datePart t ++ '_' :: timePart t

/-- generate_output_filename (src/audio_summary.py lines 89-92), with the
wall-clock instant read by datetime.now() made an explicit argument. -/
def generate_output_filename (base_name suffix extension : List Char)
    (now : DateTime) : List Char :=
  base_name ++ '_' :: (suffix ++ '_' :: (strftimeTimestamp now ++ '.' :: extension))

example :
    generate_output_filename (("speech").toList) (("transcription").toList)
      (("txt").toList) ⟨2024, 5, 17, 9, 30, 5⟩
      = ("speech_transcription_20240517_093005.txt").toList := by decide

/-- The filesystem model: the set of directories that exist, the files
(path paired with content, most recent write first), and the paths at
which the next open-for-write raises an error. -/
structure FS where
  dirs : List (List Char)
  files : List (List Char × List Char)
  failAt : List (List Char)
deriving DecidableEq, Repr

/-- Insert a directory if absent (os.makedirs with exist_ok=True is a
no-op on an existing directory). -/
def insertDir (ds : List (List Char)) (d : List Char) : List (List Char) :=
  if d ∈ ds then ds else ds ++ [d]

/-- Split a path into its slash-separated components. -/
def splitOnSlash : List Char → List (List Char)
  | [] => [[]]
  | c :: rest =>
    match splitOnSlash rest with
    | [] => [[]]
    | g :: gs => if c = '/' then [] :: g :: gs else (c :: g) :: gs

/-- Rejoin slash-separated components into a path. -/
def joinSlash : List (List Char) → List Char
  | [] => []
  | [g] => g
  | g :: gs => g ++ '/' :: joinSlash gs

/-- The chain of ancestor paths a recursive directory creation makes:
for components a, b, c the paths a, a/b, a/b/c. -/
def pathChain : List (List Char) → List (List Char)
  | [] => []
  | g :: gs => g :: (pathChain gs).map (fun p => g ++ '/' :: p)

/-- os.makedirs(d, exist_ok=True) (src/audio_summary.py line 42): creates
the directory and every ancestor, and is a no-op on those that exist. -/
def makedirs (fs : FS) (d : List Char) : FS :=
  { fs with dirs := (pathChain (splitOnSlash d)).foldl insertDir fs.dirs }

/-- The FileWriter class (src/audio_summary.py lines 32-49); its only
state is the target directory. -/
structure FileWriter where
  directory : List Char
deriving DecidableEq, Repr

/-- os.path.join of a directory and a plain filename. -/
def joinPath (d fn : List Char) : List Char := d ++ '/' :: fn

/-- FileWriter.write_to_file (src/audio_summary.py lines 44-49): open the
joined path in truncate mode and write the content.  There is no
try/except around it, so a raising write surfaces to the caller as the
error branch. -/
def write_to_file (fs : FS) (w : FileWriter) (filename content : List Char) :
    Except (List Char) FS :=
  if joinPath w.directory filename ∈ fs.failAt then
    Except.error (joinPath w.directory filename)
  else
    Except.ok { fs with files := (joinPath w.directory filename, content) :: fs.files }

/-- Read back the current content of a file, if present. -/
def lookupFile : List (List Char × List Char) → List Char → Option (List Char)
  | [], _ => none
  | e :: rest, p => if e.1 = p then some e.2 else lookupFile rest p

/-- Read the file at a path in the filesystem model. -/
def readFile (fs : FS) (p : List Char) : Option (List Char) :=
  lookupFile fs.files p

example :
    (makedirs (FS.mk [] [] []) (("a/b").toList)).dirs
      = [("a").toList, ("a/b").toList] := by decide

/-- One chat message of the request or response body. -/
structure ChatMessage where
  role : List Char
  content : List Char
deriving DecidableEq, Repr

/-- The body of an openai.ChatCompletion.create call. -/
structure ChatRequest where
  model : List Char
  messages : List ChatMessage
  max_tokens : Nat
deriving DecidableEq, Repr

/-- The part of the API response the program reads:
response['choices'], each choice holding its 'message'. -/
structure ChatResponse where
  choices : List ChatMessage
deriving DecidableEq, Repr

/-- Python str.strip() on the ASCII whitespace characters. -/
def pyIsSpace (c : Char) : Bool :=
  c = ' ' || c = '\t' || c = '\n' || c = '\r' || c = '\x0b' || c = '\x0c'

/-- Python str.strip(): drop whitespace from both ends. -/
def pyStrip (l : List Char) : List Char :=
  ((l.dropWhile pyIsSpace).reverse.dropWhile pyIsSpace).reverse

/-- AudioProcessor.transcribe_audio (src/audio_summary.py lines 61-68):
the whisper model call is the external function tr (error = the message
of the raised exception); the except branch returns the empty string. -/
def transcribe_audio (tr : List Char → Except (List Char) (List Char))
    (file_path : List Char) : List Char :=
  match tr file_path with
  | Except.ok result => result
  | Except.error _ => []

/-- The exact request body AudioProcessor.summarize_text builds
(src/audio_summary.py lines 73-80): model "gpt-4", the fixed system
instruction, one user message embedding the whole input text, and
max_tokens 800. -/
def summarizeRequest (text : List Char) : ChatRequest :=
  { model := ("gpt-4").toList
    messages :=
      [ChatMessage.mk (("system").toList)
        (("You are an assistant that summarizes texts.").toList),
       ChatMessage.mk (("user").toList)
        (("Summarize the following text: ").toList ++ text)]
    max_tokens := 800 }

/-- AudioProcessor.summarize_text (src/audio_summary.py lines 70-86).
The remote endpoint is the external function api; the second component of
the result records the requests issued, in order (the source issues
exactly the one openai.ChatCompletion.create call).  Any raise inside the
try block - a failed call, or the IndexError from response['choices'][0]
on a response with no choices - is caught and yields the empty string. -/
def summarize_text (api : ChatRequest → Except (List Char) ChatResponse)
    (text : List Char) : List Char × List ChatRequest :=
  let req := summarizeRequest text
  (match api req with
   | Except.error _ => []
   | Except.ok response =>
     match response.choices with
     | [] => []
     | choice :: _ => pyStrip choice.content,
   [req])

/-- Everything outside the program that a run observes: the credential
variable, the command-line path, whether that path exists, the starting
filesystem, the two external services, and the wall-clock instants at the
two generate_output_filename calls. -/
structure Env where
  apiKey : Option (List Char)
  argPath : List Char
  pathExists : Bool
  fs : FS
  transcribe : List Char → Except (List Char) (List Char)
  chatApi : ChatRequest → Except (List Char) ChatResponse
  now1 : DateTime
  now2 : DateTime

/-- The observable outcome of a run: the process exit code, the final
filesystem, whether the whisper model was loaded, which stages ran, the
error-level log messages of the startup/validation gates, and the chat
requests issued. -/
structure RunResult where
  exitCode : Nat
  fs : FS
  modelLoaded : Bool
  transcribeCalled : Bool
  summarizeCalled : Bool
  errors : List (List Char)
  requests : List ChatRequest
deriving Repr

/-- logging.error text at src/audio_summary.py line 25. -/
def msgApiKey : List Char := ("OpenAI API key is not set.").toList

/-- logging.error text at src/audio_summary.py line 116. -/
def msgNotExist : List Char := ("The specified file does not exist.").toList

/-- logging.error text at src/audio_summary.py lines 121-122. -/
def msgUnsupported : List Char :=
  ("Unsupported file format. Supported formats are: mp3, mp4, mpeg, mpga, m4a, wav, webm").toList

/-- Output directory for transcripts (src/audio_summary.py line 138). -/
def dirTranscription : List Char := ("audio_transcription").toList

/-- Output directory for summaries (src/audio_summary.py line 150). -/
def dirSummarize : List Char := ("audio_summarize").toList

/-- The falsiness test of `if not api_key` (src/audio_summary.py line
24): true when the variable is unset or holds the empty string. -/
def apiKeyMissing : Option (List Char) → Bool
  | none => true
  | some k => k.isEmpty

/-- The body of main (src/audio_summary.py lines 109-152), entered after
the module-level API-key gate.  An error from a write_to_file call is an
uncaught exception: Python then aborts the run with a traceback and exit
status 1; the states reached so far are kept in the result. -/
def main (env : Env) : RunResult :=
  if env.pathExists = false then
    { exitCode := 0, fs := env.fs, modelLoaded := false,
      transcribeCalled := false, summarizeCalled := false,
      errors := [msgNotExist], requests := [] }
  else if is_supported_format env.argPath = false then
    { exitCode := 0, fs := env.fs, modelLoaded := false,
      transcribeCalled := false, summarizeCalled := false,
      errors := [msgUnsupported], requests := [] }
  else
    let base_name := pyStem env.argPath
    let text := transcribe_audio env.transcribe env.argPath
    let fs1 := makedirs env.fs dirTranscription
    let tfn := generate_output_filename base_name (("transcription").toList)
      (("txt").toList) env.now1
    match write_to_file fs1 (FileWriter.mk dirTranscription) tfn text with
    | Except.error _ =>
      { exitCode := 1, fs := fs1, modelLoaded := true,
        transcribeCalled := true, summarizeCalled := false,
        errors := [], requests := [] }
    | Except.ok fs2 =>
      let sres := summarize_text env.chatApi text
      let fs3 := makedirs fs2 dirSummarize
      let sfn := generate_output_filename base_name (("summary").toList)
        (("txt").toList) env.now2
      match write_to_file fs3 (FileWriter.mk dirSummarize) sfn sres.1 with
      | Except.error _ =>
        { exitCode := 1, fs := fs3, modelLoaded := true,
          transcribeCalled := true, summarizeCalled := true,
          errors := [], requests := sres.2 }
      | Except.ok fs4 =>
        { exitCode := 0, fs := fs4, modelLoaded := true,
          transcribeCalled := true, summarizeCalled := true,
          errors := [], requests := sres.2 }

/-- The whole script: the module-level credential gate at
src/audio_summary.py lines 23-26 runs before main; exit(1) there ends the
process with status 1 before any other work. -/
def runScript (env : Env) : RunResult :=
  if apiKeyMissing env.apiKey then
    { exitCode := 1, fs := env.fs, modelLoaded := false,
      transcribeCalled := false, summarizeCalled := false,
      errors := [msgApiKey], requests := [] }
  else main env

example :
    (runScript
      (Env.mk (some (("sk").toList)) (("speech.mp3").toList) true
        (FS.mk [] [] [])
        (fun _ => Except.ok (("hello world").toList))
        (fun _ => Except.ok (ChatResponse.mk
          [ChatMessage.mk (("assistant").toList) ((" A greeting. ").toList)]))
        ⟨2024, 5, 17, 9, 30, 5⟩ ⟨2024, 5, 17, 9, 30, 6⟩)).fs.files
    = [((("audio_summarize/speech_summary_20240517_093006.txt").toList),
        (("A greeting.").toList)),
       ((("audio_transcription/speech_transcription_20240517_093005.txt").toList),
        (("hello world").toList))] := by decide

lemma splitLastDot_eq_none {l : List Char} : splitLastDot l = none ↔ '.' ∉ l := by
  induction l with
  | nil => simp [splitLastDot]
  | cons c rest ih =>
    cases h : splitLastDot rest with
    | some p =>
      obtain ⟨s, a⟩ := p
      have hd : '.' ∈ rest := by
        by_contra hn
        rw [ih.mpr hn] at h
        exact Option.noConfusion h
      simp [splitLastDot, h, hd]
    | none =>
      have hd : '.' ∉ rest := ih.mp h
      by_cases hc : c = '.'
      · simp [splitLastDot, h, hc]
      · simp [splitLastDot, h, hc, hd]
        exact fun he => hc he.symm

lemma splitLastDot_append {γ α : List Char} (hα : '.' ∉ α) :
    splitLastDot (γ ++ '.' :: α) = some (γ, α) := by
  induction γ with
  | nil =>
    have h0 : splitLastDot α = none := splitLastDot_eq_none.mpr hα
    simp [splitLastDot, h0]
  | cons c g ih => simp [splitLastDot, ih]

lemma splitLastDot_sound :
    ∀ {l s a : List Char}, splitLastDot l = some (s, a) → l = s ++ '.' :: a ∧ '.' ∉ a := by
  intro l
  induction l with
  | nil => intro s a h; simp [splitLastDot] at h
  | cons c rest ih =>
    intro s a h
    rw [splitLastDot] at h
    cases hr : splitLastDot rest with
    | some p =>
      obtain ⟨s2, a2⟩ := p
      simp only [hr, Option.some.injEq, Prod.mk.injEq] at h
      obtain ⟨hs, ha⟩ := h
      obtain ⟨hrest, hna⟩ := ih hr
      subst hs
      subst ha
      exact ⟨by rw [hrest]; rfl, hna⟩
    | none =>
      simp only [hr] at h
      by_cases hc : c = '.'
      · rw [if_pos hc] at h
        simp only [Option.some.injEq, Prod.mk.injEq] at h
        obtain ⟨hs, ha⟩ := h
        subst hs
        subst ha
        exact ⟨by rw [hc]; rfl, splitLastDot_eq_none.mp hr⟩
      · rw [if_neg hc] at h
        exact Option.noConfusion h

lemma takeWhile_append_all {α : Type} {f : α → Bool} {a b : List α}
    (h : a.all f = true) : (a ++ b).takeWhile f = a ++ b.takeWhile f := by
  induction a with
  | nil => simp
  | cons x xs ih =>
    simp only [List.all_cons, Bool.and_eq_true] at h
    simp [List.takeWhile_cons, h.1, ih h.2]

lemma basename_append {γ f : List Char} (hf : f.all (fun c => c != '/') = true) :
    basename (γ ++ f) = (γ.reverse.takeWhile (fun c => c != '/')).reverse ++ f := by
  have hrev : f.reverse.all (fun c => c != '/') = true := by
    rw [List.all_reverse]; exact hf
  unfold basename
  rw [List.reverse_append, takeWhile_append_all hrev, List.reverse_append,
    List.reverse_reverse]

lemma basename_isSuffix (p : List Char) : basename p <:+ p := by
  unfold basename
  have h1 : p.reverse.takeWhile (fun c => c != '/') <+: p.reverse :=
    List.takeWhile_prefix _
  have h2 : (p.reverse.takeWhile (fun c => c != '/')).reverse <:+ p.reverse.reverse :=
    List.reverse_suffix.mpr h1
  rwa [List.reverse_reverse] at h2

lemma eq_replicate_dot {s : List Char} (h : s.any (fun c => c != '.') = false) :
    s = List.replicate s.length '.' := by
  apply List.eq_replicate_of_mem
  intro b hb
  have hx := (List.any_eq_false.mp h) b hb
  simpa using hx

lemma supported_formats_shape :
    ∀ f ∈ supported_formats,
      f = '.' :: f.tail ∧ '.' ∉ f.tail ∧ ('/' : Char) ∉ f.tail := by decide

lemma formats_all_ne_slash :
    ∀ f ∈ supported_formats, f.all (fun c => c != '/') = true := by decide

lemma nil_not_mem_formats : ([] : List Char) ∉ supported_formats := by decide

lemma endswith_formats_iff (q : List Char) :
    supported_formats.any (fun f => f.isSuffixOf q) = true
      ↔ (pyExt q ∈ supported_formats
         ∨ ∃ k f, f ∈ supported_formats ∧ basename q = List.replicate k '.' ++ f) := by
  constructor
  · intro h
    obtain ⟨f, hf, hsuf⟩ := List.any_eq_true.mp h
    obtain ⟨γ, hγ⟩ := List.isSuffixOf_iff_suffix.mp hsuf
    obtain ⟨hshape, hdot, _⟩ := supported_formats_shape f hf
    subst hγ
    have hba : basename (γ ++ f)
        = (γ.reverse.takeWhile (fun c => c != '/')).reverse ++ f :=
      basename_append (formats_all_ne_slash f hf)
    have hsplit : splitLastDot (basename (γ ++ f))
        = some ((γ.reverse.takeWhile (fun c => c != '/')).reverse, f.tail) := by
      rw [hba, hshape]
      exact splitLastDot_append hdot
    by_cases hany :
        ((γ.reverse.takeWhile (fun c => c != '/')).reverse).any (fun c => c != '.') = true
    · left
      have hpy : pyExt (γ ++ f) = '.' :: f.tail := by
        simp [pyExt, hsplit, hany]
      rw [hpy, ← hshape]
      exact hf
    · right
      have hf2 :
          ((γ.reverse.takeWhile (fun c => c != '/')).reverse).any (fun c => c != '.')
            = false := by
        revert hany
        cases ((γ.reverse.takeWhile (fun c => c != '/')).reverse).any (fun c => c != '.') <;>
          simp
      refine ⟨((γ.reverse.takeWhile (fun c => c != '/')).reverse).length, f, hf, ?_⟩
      rw [hba]
      exact congrArg (fun l => l ++ f) (eq_replicate_dot hf2)
  · intro h
    rcases h with hext | ⟨k, f, hf, hb⟩
    · cases hsp : splitLastDot (basename q) with
      | none =>
        exfalso
        have hpy : pyExt q = [] := by simp [pyExt, hsp]
        rw [hpy] at hext
        exact nil_not_mem_formats hext
      | some p =>
        obtain ⟨s, a⟩ := p
        by_cases hany : s.any (fun c => c != '.') = true
        · have hpy : pyExt q = '.' :: a := by simp [pyExt, hsp, hany]
          rw [hpy] at hext
          obtain ⟨hbq, _⟩ := splitLastDot_sound hsp
          have h1 : ('.' :: a) <:+ basename q := by
            rw [hbq]; exact List.suffix_append _ _
          have h2 : ('.' :: a) <:+ q := h1.trans (basename_isSuffix q)
          exact List.any_eq_true.mpr ⟨'.' :: a, hext, List.isSuffixOf_iff_suffix.mpr h2⟩
        · have hpy : pyExt q = [] := by simp [pyExt, hsp, hany]
          rw [hpy] at hext
          exact absurd hext nil_not_mem_formats
    · have h1 : f <:+ basename q := by rw [hb]; exact List.suffix_append _ _
      have h2 : f <:+ q := h1.trans (basename_isSuffix q)
      exact List.any_eq_true.mpr ⟨f, hf, List.isSuffixOf_iff_suffix.mpr h2⟩

/-- C5 counterexample: the claim "is_supported_format returns true iff
the path's lowercased extension is one of the seven supported ones" fails
at the concrete path ".mp3": the function returns true, yet the path's
splitext extension is empty, hence not in the supported set. -/
theorem bare_dotfile_refutes_extension_reading :
    is_supported_format ((".mp3").toList) = true
      ∧ pyExt (lowerStr ((".mp3").toList)) ∉ supported_formats := by decide

/-- C5 (amended): is_supported_format returns true iff the lowercased
path's splitext extension is one of exactly .mp3 .mp4 .mpeg .mpga .m4a
.wav .webm, or the lowercased basename is one of those seven suffixes
preceded only by dots (a bare dotfile name such as ".mp3", which splitext
gives an empty extension); all other paths yield false, with no error
case. -/
theorem is_supported_format_characterization (p : List Char) :
    is_supported_format p = true
      ↔ (pyExt (lowerStr p) ∈ supported_formats
         ∨ ∃ k f, f ∈ supported_formats
             ∧ basename (lowerStr p) = List.replicate k '.' ++ f) :=
  endswith_formats_iff (lowerStr p)

/-- C5 witness: the characterization applied at the concrete path
"talk.M4A", whose lowercased extension ".m4a" is in the supported set. -/
theorem is_supported_format_characterization_witness :
    is_supported_format (("talk.M4A").toList) = true :=
  (is_supported_format_characterization (("talk.M4A").toList)).mpr
    (Or.inl (by decide))

/-- C10: is_supported_format decides acceptance by testing whether the
whole lowercased path ends with one of the seven suffix strings, not by
parsing out an extension; in particular the bare path ".mp3" is accepted
even though splitext assigns it an empty extension. -/
theorem is_supported_format_suffix_decision :
    (∀ p : List Char, is_supported_format p = true
        ↔ ∃ f, f ∈ supported_formats ∧ f <:+ lowerStr p)
      ∧ is_supported_format ((".mp3").toList) = true
      ∧ pyExt ((".mp3").toList) = [] := by
  refine ⟨fun p => ?_, by decide, by decide⟩
  simp only [is_supported_format]
  constructor
  · intro h
    obtain ⟨f, hf, hs⟩ := List.any_eq_true.mp h
    exact ⟨f, hf, List.isSuffixOf_iff_suffix.mp hs⟩
  · intro h
    obtain ⟨f, hf, hs⟩ := h
    exact List.any_eq_true.mpr ⟨f, hf, List.isSuffixOf_iff_suffix.mpr hs⟩

/-- C10 witness: the suffix characterization applied at the concrete
path "x.webm". -/
theorem is_supported_format_suffix_decision_witness :
    is_supported_format (("x.webm").toList) = true :=
  (is_supported_format_suffix_decision.1 (("x.webm").toList)).mpr
    ⟨(".webm").toList, by decide, by decide⟩

lemma digitChar_isDigit : ∀ d, d < 10 → (digitChar d).isDigit = true := by decide

lemma pad2_all_digit (n : Nat) : (pad2 n).all Char.isDigit = true := by
  simp only [pad2, List.all_cons, List.all_nil, Bool.and_true, Bool.and_eq_true]
  exact ⟨digitChar_isDigit _ (Nat.mod_lt _ (by decide)),
    digitChar_isDigit _ (Nat.mod_lt _ (by decide))⟩

lemma pad4_all_digit (n : Nat) : (pad4 n).all Char.isDigit = true := by
  simp only [pad4, List.all_append, Bool.and_eq_true]
  exact ⟨pad2_all_digit _, pad2_all_digit _⟩

lemma pad2_length (n : Nat) : (pad2 n).length = 2 := rfl

lemma pad4_length (n : Nat) : (pad4 n).length = 4 := rfl

lemma datePart_length (t : DateTime) : (datePart t).length = 8 := rfl

lemma timePart_length (t : DateTime) : (timePart t).length = 6 := rfl

lemma datePart_all_digit (t : DateTime) : (datePart t).all Char.isDigit = true := by
  simp only [datePart, List.all_append, Bool.and_eq_true]
  exact ⟨⟨pad4_all_digit _, pad2_all_digit _⟩, pad2_all_digit _⟩

lemma timePart_all_digit (t : DateTime) : (timePart t).all Char.isDigit = true := by
  simp only [timePart, List.all_append, Bool.and_eq_true]
  exact ⟨⟨pad2_all_digit _, pad2_all_digit _⟩, pad2_all_digit _⟩

/-- C6: generate_output_filename always returns
base ++ "_" ++ suffix ++ "_" ++ timestamp ++ "." ++ extension where the
timestamp is an 8-digit date block, an underscore, and a 6-digit time
block (14 digits in all), built from the wall-clock instant of the call;
ValidDT records the field ranges Python's datetime guarantees. -/
theorem generate_output_filename_pattern (b s e : List Char) (t : DateTime)
    (_ht : ValidDT t) :
    generate_output_filename b s e t
        = b ++ ('_' :: []) ++ s ++ ('_' :: []) ++ datePart t ++ ('_' :: [])
            ++ timePart t ++ ('.' :: []) ++ e
      ∧ (datePart t).length = 8 ∧ (timePart t).length = 6
      ∧ (datePart t).all Char.isDigit = true
      ∧ (timePart t).all Char.isDigit = true := by
  refine ⟨?_, rfl, rfl, datePart_all_digit t, timePart_all_digit t⟩
  simp [generate_output_filename, strftimeTimestamp]

/-- C6 witness: the pattern theorem applied at a concrete base, suffix,
extension and instant. -/
theorem generate_output_filename_pattern_witness :
    generate_output_filename (("speech").toList) (("transcription").toList)
        (("txt").toList) ⟨2024, 5, 17, 9, 30, 5⟩
      = ("speech").toList ++ ('_' :: []) ++ ("transcription").toList ++ ('_' :: [])
          ++ datePart ⟨2024, 5, 17, 9, 30, 5⟩ ++ ('_' :: [])
          ++ timePart ⟨2024, 5, 17, 9, 30, 5⟩ ++ ('.' :: []) ++ ("txt").toList :=
  (generate_output_filename_pattern (("speech").toList) (("transcription").toList)
    (("txt").toList) ⟨2024, 5, 17, 9, 30, 5⟩ (by decide)).1

lemma digitChar_inj : ∀ d, d < 10 → ∀ e, e < 10 → digitChar d = digitChar e → d = e := by
  decide

lemma pad2_inj : ∀ m, m < 100 → ∀ n, n < 100 → pad2 m = pad2 n → m = n := by
  intro m hm n hn h
  simp only [pad2, List.cons.injEq, and_true] at h
  obtain ⟨h1, h2⟩ := h
  have e1 := digitChar_inj _ (Nat.mod_lt _ (by decide)) _ (Nat.mod_lt _ (by decide)) h1
  have e2 := digitChar_inj _ (Nat.mod_lt _ (by decide)) _ (Nat.mod_lt _ (by decide)) h2
  omega

lemma pad4_inj {m n : Nat} (hm : m < 10000) (hn : n < 10000) (h : pad4 m = pad4 n) :
    m = n := by
  obtain ⟨e1, e2⟩ := List.append_inj h rfl
  have d1 : m / 100 = n / 100 := pad2_inj _ (by omega) _ (by omega) e1
  have d2 : m % 100 = n % 100 := pad2_inj _ (by omega) _ (by omega) e2
  omega

lemma strftimeTimestamp_inj {t1 t2 : DateTime} (hv1 : ValidDT t1) (hv2 : ValidDT t2)
    (h : strftimeTimestamp t1 = strftimeTimestamp t2) : t1 = t2 := by
  obtain ⟨y1, mo1, d1, hh1, mi1, s1⟩ := t1
  obtain ⟨y2, mo2, d2, hh2, mi2, s2⟩ := t2
  obtain ⟨ha1, hb1, hc1, hd1, he1, hf1, hg1, hi1, hj1⟩ := hv1
  obtain ⟨ha2, hb2, hc2, hd2, he2, hf2, hg2, hi2, hj2⟩ := hv2
  dsimp only at ha1 hb1 hc1 hd1 he1 hf1 hg1 hi1 hj1 ha2 hb2 hc2 hd2 he2 hf2 hg2 hi2 hj2
  simp only [strftimeTimestamp, datePart, timePart, List.append_assoc] at h
  obtain ⟨e1, h⟩ := List.append_inj h rfl
  obtain ⟨e2, h⟩ := List.append_inj h rfl
  obtain ⟨e3, h⟩ := List.append_inj h rfl
  injection h with _ h
  obtain ⟨e4, h⟩ := List.append_inj h rfl
  obtain ⟨e5, e6⟩ := List.append_inj h rfl
  simp only [DateTime.mk.injEq]
  exact ⟨pad4_inj (by omega) (by omega) e1, pad2_inj _ (by omega) _ (by omega) e2,
    pad2_inj _ (by omega) _ (by omega) e3, pad2_inj _ (by omega) _ (by omega) e4,
    pad2_inj _ (by omega) _ (by omega) e5, pad2_inj _ (by omega) _ (by omega) e6⟩

/-- An invocation of the pipeline: its identity (which of the repeated
runs it is) and the wall-clock second at which it generates a filename.
The generated filename depends only on the second. -/
structure PipelineRun where
  runId : Nat
  time : DateTime
deriving DecidableEq, Repr

/-- The output filename a given run generates for given base, suffix and
extension. -/
def runOutputFilename (base_name suffix extension : List Char)
    (r : PipelineRun) : List Char :=
  generate_output_filename base_name suffix extension r.time

/-- C7 counterexample: two distinct runs on the same input that fall in
the same wall-clock second generate identical output filenames, so the
claim that filenames from any two runs never collide is false. -/
theorem same_second_runs_collide :
    (PipelineRun.mk 0 ⟨2024, 5, 17, 9, 30, 5⟩)
        ≠ (PipelineRun.mk 1 ⟨2024, 5, 17, 9, 30, 5⟩)
      ∧ runOutputFilename (("speech").toList) (("transcription").toList)
          (("txt").toList) (PipelineRun.mk 0 ⟨2024, 5, 17, 9, 30, 5⟩)
        = runOutputFilename (("speech").toList) (("transcription").toList)
          (("txt").toList) (PipelineRun.mk 1 ⟨2024, 5, 17, 9, 30, 5⟩)
      ∧ ValidDT ⟨2024, 5, 17, 9, 30, 5⟩ := by decide

/-- C7 (amended): for two runs of the pipeline on the same input whose
generation instants differ at second granularity, the generated output
filenames differ, and writing a fresh filename leaves the file at every
other path unchanged, so an existing artifact is never overwritten; two
runs within the same wall-clock second collide, the accepted limitation
the specification notes for the filename generator. -/
theorem distinct_second_filenames_distinct (b s e : List Char) (t1 t2 : DateTime)
    (fs : FS) (w : FileWriter) (fn c q : List Char)
    (h1 : ValidDT t1) (h2 : ValidDT t2) (hne : t1 ≠ t2)
    (hq : q ≠ joinPath w.directory fn)
    (hok : joinPath w.directory fn ∉ fs.failAt) :
    generate_output_filename b s e t1 ≠ generate_output_filename b s e t2
      ∧ write_to_file fs w fn c
          = Except.ok { fs with files := (joinPath w.directory fn, c) :: fs.files }
      ∧ readFile { fs with files := (joinPath w.directory fn, c) :: fs.files } q
          = readFile fs q := by
  refine ⟨?_, ?_, ?_⟩
  · intro h
    apply hne
    apply strftimeTimestamp_inj h1 h2
    simp only [generate_output_filename] at h
    have h3 := List.append_cancel_left h
    injection h3 with _ h4
    have h5 := List.append_cancel_left h4
    injection h5 with _ h6
    exact List.append_cancel_right h6
  · simp only [write_to_file]
    rw [if_neg hok]
  · simp only [readFile, lookupFile]
    rw [if_neg (fun hh => hq hh.symm)]

/-- C7 witness: the amended theorem applied at two concrete instants one
second apart and a concrete filesystem with one fresh write. -/
theorem distinct_second_filenames_distinct_witness :
    generate_output_filename (("speech").toList) (("transcription").toList)
        (("txt").toList) ⟨2024, 5, 17, 9, 30, 5⟩
      ≠ generate_output_filename (("speech").toList) (("transcription").toList)
        (("txt").toList) ⟨2024, 5, 17, 9, 30, 6⟩
    ∧ write_to_file (FS.mk [] [] []) (FileWriter.mk dirTranscription)
        (("a.txt").toList) (("x").toList)
      = Except.ok { FS.mk [] [] [] with
          files := (joinPath dirTranscription (("a.txt").toList), ("x").toList)
            :: (FS.mk [] [] []).files }
    ∧ readFile { FS.mk [] [] [] with
          files := (joinPath dirTranscription (("a.txt").toList), ("x").toList)
            :: (FS.mk [] [] []).files } (("other").toList)
      = readFile (FS.mk [] [] []) (("other").toList) :=
  distinct_second_filenames_distinct (("speech").toList) (("transcription").toList)
    (("txt").toList) ⟨2024, 5, 17, 9, 30, 5⟩ ⟨2024, 5, 17, 9, 30, 6⟩
    (FS.mk [] [] []) (FileWriter.mk dirTranscription) (("a.txt").toList)
    (("x").toList) (("other").toList)
    (by decide) (by decide) (by decide) (by decide) (by decide)

lemma makedirs_failAt (fs : FS) (d : List Char) :
    (makedirs fs d).failAt = fs.failAt := rfl

lemma makedirs_files (fs : FS) (d : List Char) :
    (makedirs fs d).files = fs.files := rfl

lemma insertDir_of_mem {ds : List (List Char)} {d : List Char} (h : d ∈ ds) :
    insertDir ds d = ds := by simp [insertDir, h]

lemma mem_insertDir_of_mem {ds : List (List Char)} {d x : List Char} (h : x ∈ ds) :
    x ∈ insertDir ds d := by
  unfold insertDir
  by_cases hd : d ∈ ds
  · simp [hd, h]
  · simp [hd, h]

lemma mem_insertDir_self {ds : List (List Char)} {d : List Char} :
    d ∈ insertDir ds d := by
  unfold insertDir
  by_cases hd : d ∈ ds
  · simp [hd]
  · simp [hd]

lemma mem_foldl_insertDir_of_mem {x : List Char} :
    ∀ (ps : List (List Char)) (ds : List (List Char)),
      x ∈ ds → x ∈ ps.foldl insertDir ds := by
  intro ps
  induction ps with
  | nil => intro ds h; simpa using h
  | cons p rest ih => intro ds h; exact ih _ (mem_insertDir_of_mem h)

lemma mem_foldl_insertDir {x : List Char} :
    ∀ (ps : List (List Char)) (ds : List (List Char)),
      x ∈ ps → x ∈ ps.foldl insertDir ds := by
  intro ps
  induction ps with
  | nil => intro ds h; simp at h
  | cons p rest ih =>
    intro ds h
    rcases List.mem_cons.mp h with h1 | h2
    · subst h1; exact mem_foldl_insertDir_of_mem rest _ mem_insertDir_self
    · exact ih _ h2

lemma foldl_insertDir_of_subset :
    ∀ (ps : List (List Char)) (ds : List (List Char)),
      (∀ p ∈ ps, p ∈ ds) → ps.foldl insertDir ds = ds := by
  intro ps
  induction ps with
  | nil => intro ds _; rfl
  | cons p rest ih =>
    intro ds h
    have hp : p ∈ ds := h p (List.mem_cons_self _ _)
    rw [List.foldl_cons, insertDir_of_mem hp]
    exact ih ds (fun x hx => h x (List.mem_cons_of_mem _ hx))

lemma makedirs_idem (fs : FS) (d : List Char) :
    makedirs (makedirs fs d) d = makedirs fs d := by
  obtain ⟨ds, fl, fa⟩ := fs
  simp only [makedirs, FS.mk.injEq, and_true]
  exact foldl_insertDir_of_subset _ _ (fun p hp => mem_foldl_insertDir _ _ hp)

lemma splitOnSlash_ne_nil : ∀ l : List Char, splitOnSlash l ≠ [] := by
  intro l
  cases l with
  | nil => simp [splitOnSlash]
  | cons c rest =>
    simp only [splitOnSlash]
    cases h : splitOnSlash rest with
    | nil => simp
    | cons g gs =>
      by_cases hc : c = '/'
      · simp [hc]
      · simp [hc]

lemma joinSlash_splitOnSlash : ∀ l : List Char, joinSlash (splitOnSlash l) = l := by
  intro l
  induction l with
  | nil => rfl
  | cons c rest ih =>
    cases h : splitOnSlash rest with
    | nil => exact absurd h (splitOnSlash_ne_nil rest)
    | cons g gs =>
      rw [h] at ih
      by_cases hc : c = '/'
      · subst hc
        simp [splitOnSlash, h, joinSlash, ih]
      · simp only [splitOnSlash, h, if_neg hc]
        cases gs with
        | nil =>
          simp only [joinSlash] at ih ⊢
          simp [ih]
        | cons g2 gs2 =>
          simp only [joinSlash, List.cons_append] at ih ⊢
          simp [ih]

lemma joinSlash_mem_pathChain :
    ∀ comps : List (List Char), comps ≠ [] → joinSlash comps ∈ pathChain comps := by
  intro comps
  induction comps with
  | nil => intro h; exact absurd rfl h
  | cons g gs ih =>
    intro _
    cases gs with
    | nil => simp [joinSlash, pathChain]
    | cons g2 gs2 =>
      have hmem := ih (by simp)
      simp only [joinSlash, pathChain]
      exact List.mem_cons_of_mem _ (List.mem_map_of_mem _ hmem)

lemma self_mem_pathChain (d : List Char) : d ∈ pathChain (splitOnSlash d) := by
  have h := joinSlash_mem_pathChain (splitOnSlash d) (splitOnSlash_ne_nil d)
  rwa [joinSlash_splitOnSlash] at h

/-- C8: FileWriter constructed on a directory creates it and every
ancestor, idempotently (a second construction changes nothing);
write_to_file then persists the content at directory/filename exactly
(write then read round-trips), and a raising write propagates to the
caller as the error outcome, unhandled. -/
theorem fileWriter_contract (fs : FS) (d fn c : List Char) :
    makedirs (makedirs fs d) d = makedirs fs d
      ∧ d ∈ (makedirs fs d).dirs
      ∧ (pathChain (splitOnSlash d)).all
          (fun p => decide (p ∈ (makedirs fs d).dirs)) = true
      ∧ (joinPath d fn ∉ fs.failAt →
          write_to_file (makedirs fs d) (FileWriter.mk d) fn c
              = Except.ok { makedirs fs d with
                  files := (joinPath d fn, c) :: fs.files }
            ∧ readFile { makedirs fs d with
                  files := (joinPath d fn, c) :: fs.files } (joinPath d fn) = some c)
      ∧ (joinPath d fn ∈ fs.failAt →
          write_to_file (makedirs fs d) (FileWriter.mk d) fn c
            = Except.error (joinPath d fn)) := by
  refine ⟨makedirs_idem fs d, mem_foldl_insertDir _ _ (self_mem_pathChain d), ?_, ?_, ?_⟩
  · rw [List.all_eq_true]
    intro p hp
    simp only [decide_eq_true_eq]
    exact mem_foldl_insertDir _ _ hp
  · intro hnot
    constructor
    · simp only [write_to_file, makedirs_failAt, makedirs_files]
      rw [if_neg hnot]
    · simp [readFile, lookupFile]
  · intro hbad
    simp only [write_to_file, makedirs_failAt]
    rw [if_pos hbad]

/-- C8 witness: the contract applied at a concrete two-component
directory, filename and content, once on a filesystem where the write
succeeds and once on one where the write raises. -/
theorem fileWriter_contract_witness :
    makedirs (makedirs (FS.mk [] [] []) (("out/a").toList)) (("out/a").toList)
        = makedirs (FS.mk [] [] []) (("out/a").toList)
      ∧ (("out/a").toList) ∈ (makedirs (FS.mk [] [] []) (("out/a").toList)).dirs
      ∧ (pathChain (splitOnSlash (("out/a").toList))).all
          (fun p => decide (p ∈ (makedirs (FS.mk [] [] []) (("out/a").toList)).dirs)) = true
      ∧ readFile { makedirs (FS.mk [] [] []) (("out/a").toList) with
            files := (joinPath (("out/a").toList) (("f.txt").toList), ("hi").toList)
              :: (FS.mk [] [] [] : FS).files }
          (joinPath (("out/a").toList) (("f.txt").toList)) = some (("hi").toList)
      ∧ write_to_file
          (makedirs (FS.mk [] [] [joinPath (("out/a").toList) (("f.txt").toList)])
            (("out/a").toList))
          (FileWriter.mk (("out/a").toList)) (("f.txt").toList) (("hi").toList)
          = Except.error (joinPath (("out/a").toList) (("f.txt").toList)) :=
  ⟨(fileWriter_contract (FS.mk [] [] []) (("out/a").toList) (("f.txt").toList)
      (("hi").toList)).1,
   (fileWriter_contract (FS.mk [] [] []) (("out/a").toList) (("f.txt").toList)
      (("hi").toList)).2.1,
   (fileWriter_contract (FS.mk [] [] []) (("out/a").toList) (("f.txt").toList)
      (("hi").toList)).2.2.1,
   ((fileWriter_contract (FS.mk [] [] []) (("out/a").toList) (("f.txt").toList)
      (("hi").toList)).2.2.2.1 (by decide)).2,
   (fileWriter_contract (FS.mk [] [] [joinPath (("out/a").toList) (("f.txt").toList)])
      (("out/a").toList) (("f.txt").toList) (("hi").toList)).2.2.2.2 (by decide)⟩

lemma transcription_summary_paths_ne (a b : List Char) :
    joinPath dirSummarize a ≠ joinPath dirTranscription b := by
  intro h
  have e1 : joinPath dirSummarize a
      = 'a' :: 'u' :: 'd' :: 'i' :: 'o' :: '_' :: 's'
          :: (("ummarize").toList ++ '/' :: a) := rfl
  have e2 : joinPath dirTranscription b
      = 'a' :: 'u' :: 'd' :: 'i' :: 'o' :: '_' :: 't'
          :: (("ranscription").toList ++ '/' :: b) := rfl
  rw [e1, e2] at h
  simp only [List.cons.injEq] at h
  exact absurd h.2.2.2.2.2.2.1 (by decide)

/-- C9: summarize_text issues exactly one chat-completion request, and
its parameters are fixed: model "gpt-4", the fixed system instruction, a
user message embedding the full input text after the fixed instruction
head (no chunking or truncation), and a maximum output length of 800
tokens. -/
theorem summarize_text_single_fixed_request
    (api : ChatRequest → Except (List Char) ChatResponse) (text : List Char) :
    (summarize_text api text).2 = [summarizeRequest text]
      ∧ (summarizeRequest text).model = ("gpt-4").toList
      ∧ (summarizeRequest text).max_tokens = 800
      ∧ (summarizeRequest text).messages
          = [ChatMessage.mk (("system").toList)
              (("You are an assistant that summarizes texts.").toList),
             ChatMessage.mk (("user").toList)
              (("Summarize the following text: ").toList ++ text)]
      ∧ (∀ m ∈ (summarizeRequest text).messages,
          m.role = ("user").toList → text <:+ m.content) := by
  refine ⟨rfl, rfl, rfl, rfl, ?_⟩
  intro m hm hrole
  rcases List.mem_cons.mp hm with h | h
  · exfalso
    rw [h] at hrole
    exact absurd hrole (by decide)
  · rcases List.mem_cons.mp h with h2 | h2
    · rw [h2]
      exact List.suffix_append _ _
    · simp at h2

/-- C9 witness: the request produced for a concrete text carries the
fixed parameters and the whole text. -/
theorem summarize_text_single_fixed_request_witness :
    (summarize_text (fun _ => Except.error []) (("hello world").toList)).2
        = [summarizeRequest (("hello world").toList)]
      ∧ (summarizeRequest (("hello world").toList)).max_tokens = 800 :=
  ⟨(summarize_text_single_fixed_request (fun _ => Except.error [])
      (("hello world").toList)).1,
   (summarize_text_single_fixed_request (fun _ => Except.error [])
      (("hello world").toList)).2.2.1⟩

/-- C2: when the remote summarization call fails (returns an error),
summarize_text returns the empty string and does not propagate the
failure. -/
theorem summarize_text_failure_returns_empty
    (api : ChatRequest → Except (List Char) ChatResponse) (text e : List Char)
    (h : api (summarizeRequest text) = Except.error e) :
    (summarize_text api text).1 = [] := by
  simp [summarize_text, h]

/-- C2 witness: a remote call that always fails yields the empty
summary. -/
theorem summarize_text_failure_returns_empty_witness :
    (summarize_text (fun _ => Except.error (("boom").toList))
      (("hello").toList)).1 = [] :=
  summarize_text_failure_returns_empty (fun _ => Except.error (("boom").toList))
    (("hello").toList) (("boom").toList) rfl

/-- C4: with the API-key variable unset or empty, the script logs the
credential error and exits with status 1 before any work: the filesystem
is untouched, the speech model is not loaded, no transcription or
summarization happens and no request is issued. -/
theorem missing_api_key_fatal (env : Env)
    (h : env.apiKey = none ∨ env.apiKey = some []) :
    runScript env = RunResult.mk 1 env.fs false false false [msgApiKey] [] := by
  rcases h with h | h <;> simp [runScript, apiKeyMissing, h]

/-- C4 witness: the fatal-exit theorem at a concrete environment with
the variable unset. -/
theorem missing_api_key_fatal_witness :
    runScript (Env.mk none (("speech.mp3").toList) true (FS.mk [] [] [])
        (fun _ => Except.error []) (fun _ => Except.error [])
        ⟨2024, 5, 17, 9, 30, 5⟩ ⟨2024, 5, 17, 9, 30, 6⟩)
      = RunResult.mk 1 (FS.mk [] [] []) false false false [msgApiKey] [] :=
  missing_api_key_fatal _ (Or.inl rfl)

/-- C3: with the key present, a missing input path or an unsupported
format logs an error and returns early: exit status 0 (the process ends
as if successful), no file written, the speech model never loaded, no
stage run. -/
theorem validation_failure_early_return (env : Env)
    (hkey : apiKeyMissing env.apiKey = false)
    (hval : env.pathExists = false ∨ is_supported_format env.argPath = false) :
    (runScript env).exitCode = 0
      ∧ (runScript env).fs = env.fs
      ∧ (runScript env).modelLoaded = false
      ∧ (runScript env).transcribeCalled = false
      ∧ (runScript env).summarizeCalled = false
      ∧ (runScript env).errors ≠ [] := by
  have hrun : runScript env = main env := by simp [runScript, hkey]
  rcases hval with h | h
  · rw [hrun]; simp [main, h]
  · by_cases hex : env.pathExists = true
    · rw [hrun]; simp [main, hex, h]
    · have hex2 : env.pathExists = false := by
        revert hex; cases env.pathExists <;> simp
      rw [hrun]; simp [main, hex2]

/-- C3 witness: the early-return theorem at a concrete environment whose
input path does not exist. -/
theorem validation_failure_early_return_witness :
    (runScript (Env.mk (some (("sk").toList)) (("missing.mp3").toList) false
        (FS.mk [] [] []) (fun _ => Except.error []) (fun _ => Except.error [])
        ⟨2024, 5, 17, 9, 30, 5⟩ ⟨2024, 5, 17, 9, 30, 6⟩)).exitCode = 0
      ∧ (runScript (Env.mk (some (("sk").toList)) (("missing.mp3").toList) false
          (FS.mk [] [] []) (fun _ => Except.error []) (fun _ => Except.error [])
          ⟨2024, 5, 17, 9, 30, 5⟩ ⟨2024, 5, 17, 9, 30, 6⟩)).fs = FS.mk [] [] []
      ∧ (runScript (Env.mk (some (("sk").toList)) (("missing.mp3").toList) false
          (FS.mk [] [] []) (fun _ => Except.error []) (fun _ => Except.error [])
          ⟨2024, 5, 17, 9, 30, 5⟩ ⟨2024, 5, 17, 9, 30, 6⟩)).modelLoaded = false
      ∧ (runScript (Env.mk (some (("sk").toList)) (("missing.mp3").toList) false
          (FS.mk [] [] []) (fun _ => Except.error []) (fun _ => Except.error [])
          ⟨2024, 5, 17, 9, 30, 5⟩ ⟨2024, 5, 17, 9, 30, 6⟩)).transcribeCalled = false
      ∧ (runScript (Env.mk (some (("sk").toList)) (("missing.mp3").toList) false
          (FS.mk [] [] []) (fun _ => Except.error []) (fun _ => Except.error [])
          ⟨2024, 5, 17, 9, 30, 5⟩ ⟨2024, 5, 17, 9, 30, 6⟩)).summarizeCalled = false
      ∧ (runScript (Env.mk (some (("sk").toList)) (("missing.mp3").toList) false
          (FS.mk [] [] []) (fun _ => Except.error []) (fun _ => Except.error [])
          ⟨2024, 5, 17, 9, 30, 5⟩ ⟨2024, 5, 17, 9, 30, 6⟩)).errors ≠ [] :=
  validation_failure_early_return
    (Env.mk (some (("sk").toList)) (("missing.mp3").toList) false
      (FS.mk [] [] []) (fun _ => Except.error []) (fun _ => Except.error [])
      ⟨2024, 5, 17, 9, 30, 5⟩ ⟨2024, 5, 17, 9, 30, 6⟩)
    rfl (Or.inl rfl)

/-- C1: when the transcription call raises, transcribe_audio returns the
empty string instead of propagating the exception, and the pipeline still
runs every remaining stage: the transcript artifact (with empty content)
and the summary artifact (summarizing the empty string) are both written
and the run exits normally. -/
theorem transcribe_failure_pipeline_completes (env : Env) (e : List Char)
    (hkey : apiKeyMissing env.apiKey = false)
    (hex : env.pathExists = true)
    (hfmt : is_supported_format env.argPath = true)
    (hfail : env.transcribe env.argPath = Except.error e)
    (hfs : env.fs.failAt = []) :
    transcribe_audio env.transcribe env.argPath = []
      ∧ (runScript env).exitCode = 0
      ∧ (runScript env).summarizeCalled = true
      ∧ readFile (runScript env).fs
          (joinPath dirTranscription
            (generate_output_filename (pyStem env.argPath) (("transcription").toList)
              (("txt").toList) env.now1)) = some []
      ∧ readFile (runScript env).fs
          (joinPath dirSummarize
            (generate_output_filename (pyStem env.argPath) (("summary").toList)
              (("txt").toList) env.now2))
        = some ((summarize_text env.chatApi []).1) := by
  have htext : transcribe_audio env.transcribe env.argPath = [] := by
    simp [transcribe_audio, hfail]
  have hne := transcription_summary_paths_ne
    (generate_output_filename (pyStem env.argPath) (("summary").toList)
      (("txt").toList) env.now2)
    (generate_output_filename (pyStem env.argPath) (("transcription").toList)
      (("txt").toList) env.now1)
  simp only [String.toList] at hne
  refine ⟨htext, ?_, ?_, ?_, ?_⟩ <;>
    simp [runScript, hkey, main, hex, hfmt, transcribe_audio, hfail,
      write_to_file, makedirs_failAt, makedirs_files, hfs, readFile, lookupFile, hne]

/-- Concrete environment for the C1 witness: a supported, existing input
whose transcription call raises. -/
def envC1 : Env :=
  Env.mk (some (("sk").toList)) (("speech.mp3").toList) true (FS.mk [] [] [])
    (fun _ => Except.error (("boom").toList))
    (fun _ => Except.ok (ChatResponse.mk []))
    ⟨2024, 5, 17, 9, 30, 5⟩ ⟨2024, 5, 17, 9, 30, 6⟩

/-- C1 witness: the pipeline-completion theorem at the concrete failing
environment. -/
theorem transcribe_failure_pipeline_completes_witness :
    transcribe_audio envC1.transcribe envC1.argPath = []
      ∧ (runScript envC1).exitCode = 0
      ∧ (runScript envC1).summarizeCalled = true
      ∧ readFile (runScript envC1).fs
          (joinPath dirTranscription
            (generate_output_filename (pyStem envC1.argPath) (("transcription").toList)
              (("txt").toList) envC1.now1)) = some []
      ∧ readFile (runScript envC1).fs
          (joinPath dirSummarize
            (generate_output_filename (pyStem envC1.argPath) (("summary").toList)
              (("txt").toList) envC1.now2))
        = some ((summarize_text envC1.chatApi []).1) :=
  transcribe_failure_pipeline_completes envC1 (("boom").toList)
    rfl rfl (by decide) rfl rfl

end AudioSummary
